import Mathlib

/-!
Verification development for the Tabulon document-generation engine
(`src/utils/pdfGenerator.ts`).  The TypeScript source is shallowly embedded:
pure functions become Lean functions, JavaScript exceptions become
`Except`, the host `JSON.parse` builtin is taken as an explicit function
parameter, and the jsPDF drawing surface is modelled by the data each
drawing call receives (footer strings, displayed line texts, table
headers/rows).

JavaScript string primitives (`trim`, `split`, `replace`, `includes`,
`startsWith`, `endsWith`, `substring`) are modelled by structurally
recursive functions over the character list of the string, so that every
definition evaluates inside the kernel.
-/

namespace Tabulon

/-! ## JavaScript string primitives -/

/-- JavaScript `String.prototype.trim` (the inputs below only use ASCII
whitespace, where it agrees with `Char.isWhitespace`). -/
def jsTrim (s : String) : String :=
  String.mk (((s.data.dropWhile Char.isWhitespace).reverse.dropWhile Char.isWhitespace).reverse)

/-- Split at the first occurrence of a (non-empty) pattern: the part before
it and the part after it. -/
def splitAtSub (pat : List Char) : List Char → Option (List Char × List Char)
  | [] => none
  | c :: rest =>
    if List.isPrefixOf pat (c :: rest) then some ([], (c :: rest).drop pat.length)
    else
      match splitAtSub pat rest with
      | none => none
      | some (pre, post) => some (c :: pre, post)

/-- Worker for `jsSplit`: repeated leftmost non-overlapping pattern split.
`fuel` bounds the recursion; every step strictly shrinks the remaining
list (the pattern is non-empty), so `length + 1` fuel never runs out. -/
def jsSplitGo (pat : List Char) : Nat → List Char → List (List Char)
  | 0, cs => [cs]
  | fuel + 1, cs =>
    match splitAtSub pat cs with
    | none => [cs]
    | some (pre, post) => pre :: jsSplitGo pat fuel post

/-- JavaScript `s.split(sep)` for a non-empty separator (in particular
`''.split(sep) = ['']`). -/
def jsSplit (sep : String) (s : String) : List String :=
  (jsSplitGo sep.data (s.length + 1) s.data).map String.mk

/-- Worker for `jsReplaceAll`. -/
def jsReplaceGo (pat rep : List Char) : Nat → List Char → List Char
  | 0, cs => cs
  | fuel + 1, cs =>
    match splitAtSub pat cs with
    | none => cs
    | some (pre, post) => pre ++ rep ++ jsReplaceGo pat rep fuel post

/-- JavaScript `s.replace(/pat/g, rep)` for a literal non-empty pattern:
leftmost non-overlapping replacement. -/
def jsReplaceAll (pat rep s : String) : String :=
  String.mk (jsReplaceGo pat.data rep.data (s.length + 1) s.data)

/-- JavaScript `s.startsWith(pre)`. -/
def jsStartsWith (pre s : String) : Bool :=
  List.isPrefixOf pre.data s.data

/-- JavaScript `s.endsWith(suf)`. -/
def jsEndsWith (suf s : String) : Bool :=
  List.isPrefixOf suf.data.reverse s.data.reverse

/-- JavaScript `s.includes(pat)` for a non-empty pattern. -/
def jsIncludes (s pat : String) : Bool :=
  (splitAtSub pat.data s.data).isSome

/-- JavaScript `s.substring(0, n)`. -/
def jsTake (s : String) (n : Nat) : String :=
  String.mk (s.data.take n)

/-- Decimal-digit parse of a string (array index lookup). -/
def jsToNat? (s : String) : Option Nat :=
  if s.data ≠ [] ∧ s.data.all Char.isDigit then
    some (s.data.foldl (fun n c => n * 10 + (c.toNat - 48)) 0)
  else none

/-! ## CSV tokenizer (`parseCsv`)

Source: the per-line scan keeps an `inQuotes` flag, a `"` toggles the flag
and is dropped, a `,` outside quotes terminates the current cell (trimmed),
and end of line terminates the final cell.  `content.trim().split('\n')`
is modelled by `jsTrim` / `jsSplit` (in particular
`jsSplit "\n" "" = [""]`, matching `''.split('\n') = ['']`). -/

def parseCsvLineGo : List Char → String → Bool → List String → List String
  | [], current, _, cells => cells ++ [jsTrim current]
  | c :: rest, current, inQuotes, cells =>
    if c = '"' then parseCsvLineGo rest current (!inQuotes) cells
    else if c = ',' && !inQuotes then parseCsvLineGo rest "" false (cells ++ [jsTrim current])
    else parseCsvLineGo rest (current.push c) inQuotes cells

def parseCsvLine (line : String) : List String :=
  parseCsvLineGo line.data "" false []

def parseCsv (content : String) : List (List String) :=
  (jsSplit "\n" (jsTrim content)).map parseCsvLine

/-- Number of commas that occur outside quoted spans of a line (the scan
toggles the same `inQuotes` flag as the tokenizer).  Used to state how many
cells the tokenizer produces per line. -/
def unquotedCommas : List Char → Bool → Nat
  | [], _ => 0
  | c :: rest, inQ =>
    if c = '"' then unquotedCommas rest (!inQ)
    else if c = ',' && !inQ then unquotedCommas rest inQ + 1
    else unquotedCommas rest inQ

/-! ## JSON value model

`JSON.parse` produces null / boolean / number / string / array / object
values.  Numbers are modelled as integers: every numeric literal appearing
in the claims is an integer, and `String(n)` on a JavaScript integer agrees
with `Int` printing. -/

inductive Json where
  | jnull
  | jbool (b : Bool)
  | jnum (n : Int)
  | jstr (s : String)
  | jarr (elems : List Json)
  | jobj (fields : List (String × Json))

/-- JavaScript `typeof x === 'object'`: true for `null`, arrays and
objects. -/
def Json.isObjectType : Json → Bool
  | .jnull => true
  | .jarr _ => true
  | .jobj _ => true
  | _ => false

def Json.isNull : Json → Bool
  | .jnull => true
  | _ => false

/-- JavaScript `Object.values`: property values of an object, elements of
an array (only invoked by the source behind a `typeof === 'object'`
guard). -/
def jsValues : Json → List Json
  | .jobj fs => fs.map Prod.snd
  | .jarr es => es
  | _ => []

/-- `canFlattenToTable` translated branch by branch: (1) an array whose
first element is `typeof 'object'` and not `null`; (2) otherwise, any
non-null `typeof 'object'` value one of whose `Object.values` is a
non-empty array whose first element is `typeof 'object'` — the source
omits the `!== null` check in this second branch. -/
def canFlattenToTable (data : Json) : Bool :=
  (match data with
   | .jarr (x :: _) => x.isObjectType && !x.isNull
   | _ => false)
  ||
  (data.isObjectType && !data.isNull &&
    (jsValues data).any (fun v =>
      match v with
      | .jarr (x :: _) => x.isObjectType
      | _ => false))

/-! ## Flattening (`flattenJsonToTable`)

JavaScript exceptions are modelled with `Except String`.  `Object.keys`
throws a `TypeError` on `null`; on arrays and strings it yields the index
keys, on other primitives it yields no keys (ES2015 coercion). -/

mutual
/-- `JSON.stringify(v)` (compact), used for object/array cell values.
String escaping is not modelled: no claim input contains characters that
`JSON.stringify` would escape. -/
def Json.stringifyVal : Json → String
  | .jnull => "null"
  | .jbool b => cond b "true" "false"
  | .jnum n => toString n
  | .jstr s => "\"" ++ s ++ "\""
  | .jarr es => "[" ++ stringifyElems es ++ "]"
  | .jobj fs => "\x7b" ++ stringifyFields fs ++ "\x7d"

def stringifyElems : List Json → String
  | [] => ""
  | [x] => x.stringifyVal
  | x :: y :: xs => x.stringifyVal ++ "," ++ stringifyElems (y :: xs)

def stringifyFields : List (String × Json) → String
  | [] => ""
  | [(k, v)] => "\"" ++ k ++ "\":" ++ v.stringifyVal
  | (k, v) :: f :: fs => "\"" ++ k ++ "\":" ++ v.stringifyVal ++ "," ++ stringifyFields (f :: fs)
end

/-- JavaScript `Object.keys`. -/
def objKeys : Json → Except String (List String)
  | .jnull => .error "TypeError"
  | .jobj fs => .ok (fs.map Prod.fst)
  | .jarr es => .ok ((List.range es.length).map toString)
  | .jstr s => .ok ((List.range s.length).map toString)
  | _ => .ok []

/-- JavaScript property read `item[h]` for a string key `h`: `none` models
`undefined`; reading a property of `null` throws. -/
def jsIndex : Json → String → Except String (Option Json)
  | .jnull, _ => .error "TypeError"
  | .jobj fs, h => .ok ((fs.reverse.find? (fun p => p.1 = h)).map Prod.snd)
  | .jarr es, h =>
    .ok (match jsToNat? h with
         | some i => es.get? i
         | none => none)
  | .jstr s, h =>
    .ok (match jsToNat? h with
         | some i => (s.data.get? i).map (fun c => Json.jstr (String.mk [c]))
         | none => none)
  | _, _ => .ok none

/-- Cell serialization in `flattenJsonToTable`: `null`/`undefined` become
the empty string, objects/arrays their `JSON.stringify`, primitives their
`String(...)` form. -/
def displayCell : Option Json → String
  | none => ""
  | some .jnull => ""
  | some (.jarr es) => (Json.jarr es).stringifyVal
  | some (.jobj fs) => (Json.jobj fs).stringifyVal
  | some (.jbool b) => cond b "true" "false"
  | some (.jnum n) => toString n
  | some (.jstr s) => s

/-- The `for (const val of values)` scan of `flattenJsonToTable`: the first
property value that is a non-empty array whose first element is
`typeof 'object'` (the source again performs no `null` filtering here). -/
def firstArrayOfObjects : List (String × Json) → Option (List Json)
  | [] => none
  | (_, v) :: rest =>
    match v with
    | .jarr (x :: xs) =>
      if x.isObjectType then some (x :: xs) else firstArrayOfObjects rest
    | _ => firstArrayOfObjects rest

/-- The `items` selection of `flattenJsonToTable`: a top-level array is
filtered to its non-null `typeof 'object'` elements; an object contributes
the first qualifying property value, unfiltered. -/
def flattenItems : Json → List Json
  | .jarr es => es.filter (fun e => e.isObjectType && !e.isNull)
  | .jobj fs => (firstArrayOfObjects fs).getD []
  | _ => []

/-- `List.mapM` specialised to `Except` by structural recursion (JavaScript
`map`/`forEach` with a possible thrown exception). -/
def exMap (f : α → Except String β) : List α → Except String (List β)
  | [] => .ok []
  | a :: as =>
    match f a with
    | .error e => .error e
    | .ok b =>
      match exMap f as with
      | .error e => .error e
      | .ok bs => .ok (b :: bs)

/-- Left fold over a list with a possible thrown exception. -/
def exFoldl (f : σ → α → Except String σ) : σ → List α → Except String σ
  | s, [] => .ok s
  | s, a :: as =>
    match f s a with
    | .error e => .error e
    | .ok s2 => exFoldl f s2 as

/-- Header collection: every item's `Object.keys` added to an
insertion-ordered set. -/
def collectHeaders (items : List Json) : Except String (List String) :=
  exFoldl
    (fun acc item =>
      match objKeys item with
      | .error e => .error e
      | .ok ks => .ok (ks.foldl (fun a k => if a.contains k then a else a ++ [k]) acc))
    [] items

/-- One table row: each header looked up in the item (`item[header]`) and
serialized. -/
def buildRow (headers : List String) (item : Json) : Except String (List String) :=
  exMap (fun h =>
      match jsIndex item h with
      | .error e => .error e
      | .ok v => .ok (displayCell v))
    headers

/-- `flattenJsonToTable` — empty `items` short-circuits to an empty
projection, otherwise headers are collected and rows built (either step
can throw when an item is `null`). -/
def flattenJsonToTable (data : Json) :
    Except String (List String × List (List String)) :=
  let items := flattenItems data
  if items.isEmpty then .ok ([], [])
  else
    match collectHeaders items with
    | .error e => .error e
    | .ok headers =>
      match exMap (buildRow headers) items with
      | .error e => .error e
      | .ok rows => .ok (headers, rows)

/-! ## Render options and dispatch (`generatePdfFromJson`) -/

inductive Orientation where
  | portrait
  | landscape
deriving DecidableEq

inductive Layout where
  | auto
  | table
  | structured
deriving DecidableEq, BEq

/-- What the JSON entry point hands to the drawing surface: a table
(headers and rows), a thrown exception escaping from the flattening, or
the list of text lines drawn by the structured renderer. -/
inductive JsonPdfOutput where
  | table (headers : List String) (rows : List (List String))
  | tableError (msg : String)
  | structuredLines (displayed : List String)
deriving DecidableEq

/-- The structured JSON renderer draws each line unmodified
(`doc.text(line, 28, currentY)` — no truncation and no wrapping). -/
def jsonDisplayLine (line : String) : String := line

/-- Per-orientation character budget of the structured XML renderer:
`orientation === 'landscape' ? 120 : 80`. -/
def structuredMaxChars : Orientation → Nat
  | .landscape => 120
  | .portrait => 80

/-- Truncation in the structured XML renderer:
`line.length > maxChars ? line.substring(0, maxChars) + '...' : line`. -/
def xmlDisplayLine (o : Orientation) (line : String) : String :=
  let maxChars := structuredMaxChars o
  if line.length > maxChars then jsTake line maxChars ++ "..." else line

/-- Text lines drawn by `generateStructuredJsonPdf`: the content is
re-parsed; on success it is re-serialized by `JSON.stringify(parsed, null, 2)`
(taken as the function parameter `stringifyPretty`, a host builtin), on
failure the raw content is used; the result is split on newlines and each
line drawn verbatim. -/
def generateStructuredJsonPdfLines (parse : String → Option Json)
    (stringifyPretty : Json → String) (content : String) : List String :=
  let formatted :=
    match parse content with
    | some p => stringifyPretty p
    | none => content
  (jsSplit "\n" formatted).map jsonDisplayLine

/-- `generatePdfFromJson`: a parse failure falls back to the structured
renderer; otherwise `layout === 'table' || (layout === 'auto' && canFlattenToTable(parsed))`
selects the table renderer (whose flattening may throw), else the
structured renderer.  `parse` models the host `JSON.parse` (returning
`none` where `JSON.parse` throws). -/
def generatePdfFromJson (parse : String → Option Json)
    (stringifyPretty : Json → String) (content : String) (layout : Layout) :
    JsonPdfOutput :=
  match parse content with
  | none => .structuredLines (generateStructuredJsonPdfLines parse stringifyPretty content)
  | some parsed =>
    let useTable := layout == Layout.table || (layout == Layout.auto && canFlattenToTable parsed)
    if useTable then
      match flattenJsonToTable parsed with
      | .ok (h, r) => .table h r
      | .error e => .tableError e
    else .structuredLines (generateStructuredJsonPdfLines parse stringifyPretty content)

/-! ## Page footer (`addPageFooter`)

`const total = totalPages || doc.getNumberOfPages();` — when the explicit
`totalPages` argument is `undefined` the current page count of the
document is used.  `currentPageCount` models `doc.getNumberOfPages()` at
the moment of the call. -/

def addPageFooter (pageNumber : Nat) (totalPages : Option Nat)
    (currentPageCount : Nat) : String :=
  let total :=
    match totalPages with
    | some t => t
    | none => currentPageCount
  "Page " ++ toString pageNumber ++ " of " ++ toString total

/-- Footers stamped in the table modes (CSV table, JSON table, XML table):
`didDrawPage` runs `addPageFooter(doc, data.pageNumber, undefined, ...)`
while page `k` is being drawn, at which moment the document holds exactly
`k` pages (jspdf-autotable adds overflow pages only as the table grows),
so `doc.getNumberOfPages()` returns `k`. -/
def tableModeFooters (finalPageCount : Nat) : List String :=
  (List.range finalPageCount).map (fun k => addPageFooter (k + 1) none (k + 1))

/-- Footers stamped in the structured modes: after all content is drawn,
`pageCount = doc.getNumberOfPages()` is read once and every page is
revisited with `addPageFooter(doc, i, pageCount, ...)`. -/
def structuredModeFooters (finalPageCount : Nat) : List String :=
  (List.range finalPageCount).map
    (fun k => addPageFooter (k + 1) (some finalPageCount) finalPageCount)

/-! ## XML pretty-printer (`formatXml`)

`xml.replace(/></g, '>\n<')`, then a line-oriented fold: blank (trimmed)
lines are skipped; a line starting with `</` decrements the indent with
`Math.max(0, indent - 1)` before being emitted; after emitting, a line that
does not start with `<?` or `</`, does not end with `/>` and does not
contain `</` increments the indent.  The indent is a JavaScript number,
modelled as `Int`; the emitted `(depth, text)` pairs are kept so the
final string is their rendering with `'  '.repeat(depth)`. -/

def isCloseLine (line : String) : Bool := jsStartsWith "</" line

def isOpenLine (line : String) : Bool :=
  !jsStartsWith "<?" line && !isCloseLine line && !jsEndsWith "/>" line &&
    !jsIncludes line "</"

def formatXmlStep (st : Int × List (Int × String)) (raw : String) :
    Int × List (Int × String) :=
  let line := jsTrim raw
  if line = "" then st
  else
    let ind1 := if isCloseLine line then max 0 (st.1 - 1) else st.1
    let acc := st.2 ++ [(ind1, line)]
    let ind2 := if isOpenLine line then ind1 + 1 else ind1
    (ind2, acc)

/-- The `(depth, text)` pairs emitted by `formatXml`. -/
def formatXmlLines (xml : String) : List (Int × String) :=
  ((jsSplit "\n" (jsReplaceAll "><" ">\n<" xml)).foldl formatXmlStep (0, [])).2

def indentSpaces (n : Nat) : String := String.join (List.replicate n "  ")

def formatXml (xml : String) : String :=
  String.join ((formatXmlLines xml).map
    (fun p => indentSpaces p.1.toNat ++ p.2 ++ "\n"))

/-- Text lines drawn by `generateStructuredXmlPdf`: the formatted markup is
split on newlines and each line is drawn truncated to the per-orientation
budget. -/
def generateStructuredXmlPdfLines (content : String) (o : Orientation) : List String :=
  (jsSplit "\n" (formatXml content)).map (xmlDisplayLine o)

/-! ## XML extractor (`parseXmlToObjects`)

The three regexes of the source are modelled operationally, following the
backtracking behaviour of the JavaScript engine on them:

* `/<(\w+)([^>]*)>([\s\S]*?)<\/\1>/g` — at each position: a `<` followed by
  a maximal non-empty word-character run (the tag), then everything up to
  the first `>` (the attributes, which cannot contain `>`), then the
  shortest content up to the first occurrence of `</tag>`; scanning is
  non-overlapping and resumes after the closing tag, a failed position
  advances by one character.  (The engine's fallback of retrying a shorter
  tag name when the full run finds no matching close — possible only when
  a closing tag's name is a proper prefix of the opening name — is not
  modelled; no such malformed input occurs below.)
* `/(\w+)="([^"]*)"/g` for attributes.
* `/<(\w+)([^>]*)>([^<]*)<\/\1>/g` for text-only children: the text runs to
  the first `<`, which must begin the matching closing tag. -/

def isWordChar (c : Char) : Bool := c.isAlphanum || c = '_'

/-- Split at the first occurrence of a character: the part before it and
the part after it. -/
def splitAtChar (target : Char) : List Char → Option (List Char × List Char)
  | [] => none
  | c :: rest =>
    if c = target then some ([], rest)
    else
      match splitAtChar target rest with
      | none => none
      | some (pre, post) => some (c :: pre, post)

/-- The element-regex scan: produces `(tagName, attributes, content)`
triples in match order.  `fuel` bounds the recursion; every step strictly
shrinks the input, so `length + 1` fuel never runs out. -/
def scanElements : Nat → List Char → List (String × String × String)
  | 0, _ => []
  | _, [] => []
  | fuel + 1, c :: rest =>
    if c = '<' then
      let tag := rest.takeWhile isWordChar
      if tag.isEmpty then scanElements fuel rest
      else
        let afterTag := rest.drop tag.length
        match splitAtChar '>' afterTag with
        | none => scanElements fuel rest
        | some (attrs, afterGt) =>
          match splitAtSub (('<' :: '/' :: tag) ++ ['>']) afterGt with
          | none => scanElements fuel rest
          | some (content, afterClose) =>
            (String.mk tag, String.mk attrs, String.mk content) ::
              scanElements fuel afterClose
    else scanElements fuel rest

/-- The attribute-regex scan over an attribute string:
`(name, value)` pairs in match order. -/
def scanAttrs : Nat → List Char → List (String × String)
  | 0, _ => []
  | _, [] => []
  | fuel + 1, c :: rest =>
    if isWordChar c then
      let name := c :: rest.takeWhile isWordChar
      let afterName := rest.drop (name.length - 1)
      match afterName with
      | '=' :: '"' :: afterQ =>
        let value := afterQ.takeWhile (fun ch => ch ≠ '"')
        let afterV := afterQ.drop value.length
        match afterV with
        | '"' :: afterEnd => (String.mk name, String.mk value) :: scanAttrs fuel afterEnd
        | _ => scanAttrs fuel rest
      | _ => scanAttrs fuel rest
    else scanAttrs fuel rest

/-- The child-regex scan over an element's content: `(tagName, trimmedText)`
pairs in match order. -/
def scanChildren : Nat → List Char → List (String × String)
  | 0, _ => []
  | _, [] => []
  | fuel + 1, c :: rest =>
    if c = '<' then
      let tag := rest.takeWhile isWordChar
      if tag.isEmpty then scanChildren fuel rest
      else
        let afterTag := rest.drop tag.length
        match splitAtChar '>' afterTag with
        | none => scanChildren fuel rest
        | some (_, afterGt) =>
          let text := afterGt.takeWhile (fun ch => ch ≠ '<')
          let afterText := afterGt.drop text.length
          let closePat := ('<' :: '/' :: tag) ++ ['>']
          if List.isPrefixOf closePat afterText then
            (String.mk tag, jsTrim (String.mk text)) ::
              scanChildren fuel (afterText.drop closePat.length)
          else scanChildren fuel rest
    else scanChildren fuel rest

/-- JavaScript object property assignment `obj[k] = v` on an
insertion-ordered record: an existing key keeps its position and is
overwritten, a new key is appended. -/
def jsSet (m : List (String × String)) (k v : String) : List (String × String) :=
  if m.any (fun p => p.1 = k) then m.map (fun p => if p.1 = k then (k, v) else p)
  else m ++ [(k, v)]

/-- Bucketing of matched spans by tag name (`groups[tagName].push(...)`),
in first-encounter order.  (JavaScript reorders integer-like object keys
first; tag names that are decimal numerals are not modelled, and none
occur below.) -/
def buildGroups (ms : List (String × String × String)) :
    List (String × List (String × String)) :=
  ms.foldl
    (fun gs m =>
      if gs.any (fun g => g.1 = m.1) then
        gs.map (fun g => if g.1 = m.1 then (g.1, g.2 ++ [(m.2.1, m.2.2)]) else g)
      else gs ++ [(m.1, [(m.2.1, m.2.2)])])
    []

/-- One step of the group-selection fold:
`items.length > maxCount && items.length > 1` replaces the running
maximum. -/
def selStep (acc g : String × List (String × String)) :
    String × List (String × String) :=
  if g.2.length > acc.2.length && g.2.length > 1 then g else acc

/-- The group-selection fold, whose running maximum starts at `('', 0)`. -/
def selectMaxGroup (gs : List (String × List (String × String))) :
    String × List (String × String) :=
  gs.foldl selStep ("", [])

/-- One record from a matched span: attribute fields (prefixed with `@`)
first, then text-only child fields, with JavaScript assignment
(overwrite-in-place) semantics. -/
def buildRecord (attrs content : String) : List (String × String) :=
  let withAttrs :=
    (scanAttrs (attrs.length + 1) attrs.data).foldl
      (fun o p => jsSet o ("@" ++ p.1) p.2) []
  (scanChildren (content.length + 1) content.data).foldl
    (fun o p => jsSet o p.1 p.2) withAttrs

/-- `parseXmlToObjects`: match all element spans, bucket them by tag name,
select the largest bucket with more than one member (ties to the first
encountered), build a record per span and drop records with no fields. -/
def parseXmlToObjects (xml : String) : List (List (String × String)) :=
  let ms := scanElements (xml.length + 1) xml.data
  let sel := selectMaxGroup (buildGroups ms)
  if sel.1 = "" then []
  else (sel.2.map (fun ic => buildRecord ic.1 ic.2)).filter (fun r => r.length > 0)

/-! ## Auxiliary definitions for the statements

Stack-discipline matching of the pretty-printer output, spec-side
predicates taken from the claims' wording, and the concrete inputs of the
scenario claims. -/

/-- One step of the open/close matcher over the emitted `(depth, text)`
pairs, classified by the same predicates the formatter branches on: a
close-classified line pops the stack and records the
`(opening depth, closing depth)` pair (an unmatched close is skipped); an
open-classified line pushes its depth; other lines are neutral. -/
def matchStep (st : List Int × List (Int × Int)) (p : Int × String) :
    List Int × List (Int × Int) :=
  if isCloseLine p.2 then
    match st.1 with
    | [] => st
    | d :: rest => (rest, st.2 ++ [(d, p.1)])
  else if isOpenLine p.2 then (p.1 :: st.1, st.2)
  else st

/-- All `(opening depth, closing depth)` pairs matched by the stack
discipline over a pretty-printed line list. -/
def matchedPairs (lines : List (Int × String)) : List (Int × Int) :=
  (lines.foldl matchStep ([], [])).2

/-- The stack `[n-1, …, 1, 0]` that the matcher holds when the formatter's
indent is `n`. -/
def descStack : Nat → List Int
  | 0 => []
  | n + 1 => (n : Int) :: descStack n

/-- Invariant carried through the `formatXml` fold: the indent is
non-negative, every emitted depth is non-negative, the matcher stack over
the emitted lines is `descStack indent`, and every matched pair has equal
depths. -/
def FmtInv (st : Int × List (Int × String)) : Prop :=
  0 ≤ st.1 ∧ (∀ p ∈ st.2, 0 ≤ p.1) ∧
    (st.2.foldl matchStep ([], [])).1 = descStack st.1.toNat ∧
    (∀ q ∈ (st.2.foldl matchStep ([], [])).2, q.1 = q.2)

/-- Largest member count among the buckets. -/
def maxBucketCount (gs : List (String × List (String × String))) : Nat :=
  gs.foldr (fun g m => max g.2.length m) 0

/-- The selection rule as the claim words it: among buckets with more than
one member, the bucket with the strictly largest member count, ties
resolved in favour of the first encountered — i.e. the first bucket whose
member count equals the maximum, provided that maximum exceeds 1. -/
def specSelectBucket (gs : List (String × List (String × String))) :
    Option (String × List (String × String)) :=
  if 1 < maxBucketCount gs then gs.find? (fun g => g.2.length == maxBucketCount gs)
  else none

def isJObj : Json → Bool
  | .jobj _ => true
  | _ => false

/-- An array one of whose elements is an object (`\x7b…\x7d` value). -/
def arrayContainsObject : Json → Bool
  | .jarr es => es.any isJObj
  | _ => false

/-- Spec-side predicate following claim C10's words: "an array containing
an object element is found (either at top level or as a property
value)". -/
def hasArrayWithObjectElement (j : Json) : Bool :=
  arrayContainsObject j ||
    (match j with
     | .jobj fs => fs.any (fun p => arrayContainsObject p.2)
     | _ => false)

/-- An array one of whose elements is `typeof 'object'` (`null`, an array
or an object). -/
def arrayContainsObjectTyped : Json → Bool
  | .jarr es => es.any Json.isObjectType
  | _ => false

/-- The `typeof`-based variant: an array containing a `typeof 'object'`
element is found at top level or as a property value. -/
def hasArrayWithObjectTypedElement (j : Json) : Bool :=
  arrayContainsObjectTyped j ||
    (match j with
     | .jobj fs => fs.any (fun p => arrayContainsObjectTyped p.2)
     | _ => false)

/-- The parse of the scenario input
`\x7b"items":[\x7b"a":1\x7d,\x7b"a":2,"b":"x"\x7d]\x7d` (claim C9). -/
def c9Tree : Json :=
  Json.jobj [("items", Json.jarr
    [Json.jobj [("a", Json.jnum 1)],
     Json.jobj [("a", Json.jnum 2), ("b", Json.jstr "x")]])]

/-- A root-less markup fragment with two `product` elements and a singleton
`meta` element. -/
def fragmentXml : String :=
  "<meta>m</meta><product><name>A</name><price>1</price></product><product><name>B</name><price>2</price></product>"

/-- The same two `product` elements wrapped in a single `catalog` root. -/
def rootedXml : String :=
  "<catalog><product><name>A</name></product><product><name>B</name></product></catalog>"

/-- Two `product` elements, the first of which contributes zero fields. -/
def dropXml : String :=
  "<product></product><product><name>B</name></product>"

/-- A line of 81 `a` characters (above the 80-character portrait budget). -/
def longLine81 : String := String.mk (List.replicate 81 'a')

/-! # Helper lemmas -/

theorem parseCsvLineGo_length (cs : List Char) :
    ∀ (current : String) (inQ : Bool) (cells : List String),
    (parseCsvLineGo cs current inQ cells).length
      = cells.length + 1 + unquotedCommas cs inQ := by
  induction cs with
  | nil => intro current inQ cells; simp [parseCsvLineGo, unquotedCommas]
  | cons c rest ih =>
    intro current inQ cells
    by_cases h1 : c = '"'
    · simp only [parseCsvLineGo, unquotedCommas, if_pos h1, ih]
    · by_cases h2 : (c = ',' && !inQ) = true
      · have hinQ : inQ = false := by
          cases inQ
          · rfl
          · simp at h2
        subst hinQ
        simp only [parseCsvLineGo, unquotedCommas, if_neg h1, if_pos h2, ih]
        simp only [List.length_append, List.length_singleton]
        omega
      · simp only [parseCsvLineGo, unquotedCommas, if_neg h1, if_neg h2, ih]

theorem parseCsvLine_length (line : String) :
    (parseCsvLine line).length = unquotedCommas line.data false + 1 := by
  unfold parseCsvLine
  rw [parseCsvLineGo_length]
  simp only [List.length_nil]
  omega

/-! # Claims -/

/-- Claim C2 (counterexample): on the empty string — whose trimmed content
is empty — the tokenizer returns one row containing one empty cell, not
zero rows (`''.trim().split('\n')` is `['']`, not `[]`). -/
theorem claim_C2_counterexample :
    parseCsv "" = [[""]] ∧ parseCsv "" ≠ ([] : List (List String)) :=
  ⟨by decide, by decide⟩

/-- Claim C2 (amended): for every input whose trimmed content is empty the
tokenizer returns exactly one row holding a single empty cell — so callers
see one empty header and zero data rows — rather than zero rows. -/
theorem claim_C2_theorem (s : String) (h : jsTrim s = "") :
    parseCsv s = [[""]] := by
  unfold parseCsv
  rw [h]
  decide

/-- Claim C2 (witness): a whitespace-only string trims to empty and
tokenizes to one row with one empty cell. -/
theorem claim_C2_witness : jsTrim "  " = "" ∧ parseCsv "  " = [[""]] :=
  ⟨by decide, claim_C2_theorem "  " (by decide)⟩

/-- Claim C3 (counterexample): with header row `a,b` of width 2, the source
line `c` produces a row of width 1 — rows are not padded or truncated to
the header width. -/
theorem claim_C3_counterexample :
    parseCsv "a,b\nc" = [["a", "b"], ["c"]] ∧
    (["c"] : List String).length ≠ (["a", "b"] : List String).length :=
  ⟨by decide, by decide⟩

/-- Claim C3 (amended): tokenization is total and width-preserving, not
width-equalizing: it produces one row per line of the trimmed input, and a
row's cell count is one more than the number of unquoted commas of its own
source line — so lines with differing delimiter counts yield rows of
differing widths, preserved as-is without crashing. -/
theorem claim_C3_theorem (content line : String)
    (h : line ∈ jsSplit "\n" (jsTrim content)) :
    (parseCsv content).length = (jsSplit "\n" (jsTrim content)).length ∧
    (parseCsvLine line).length = unquotedCommas line.data false + 1 := by
  refine ⟨?_, parseCsvLine_length line⟩
  unfold parseCsv
  exact List.length_map _ _

/-- Claim C3 (witness): the two-line input `a,b\nc` yields two rows, and
the row of its second line has `0 + 1` cells. -/
theorem claim_C3_witness :
    "c" ∈ jsSplit "\n" (jsTrim "a,b\nc") ∧
    ((parseCsv "a,b\nc").length = (jsSplit "\n" (jsTrim "a,b\nc")).length ∧
     (parseCsvLine "c").length = unquotedCommas "c".data false + 1) :=
  ⟨by decide, claim_C3_theorem "a,b\nc" "c" (by decide)⟩

/-- Claim C1 (counterexample): a two-page table-mode document (CSV table,
JSON table, XML table) stamps `Page 1 of 1` on its first page — the
`didDrawPage` footer passes `undefined` as the total and falls back to the
page count at drawing time — not `Page 1 of 2` as the claim requires. -/
theorem claim_C1_counterexample :
    tableModeFooters 2 = ["Page 1 of 1", "Page 2 of 2"] ∧
    ("Page 1 of 1" : String) ≠ "Page 1 of 2" :=
  ⟨by decide, by decide⟩

/-- Claim C1 (amended): only the structured modes stamp `Page i of N` with
the finalized total `N` (two-pass footer loop); the table modes stamp
`Page i of i` while drawing page `i`, which equals the final total only on
the last page. -/
theorem claim_C1_theorem (n i : Nat) (h : i < n) :
    (structuredModeFooters n).get? i
      = some ("Page " ++ toString (i + 1) ++ " of " ++ toString n) ∧
    (tableModeFooters n).get? i
      = some ("Page " ++ toString (i + 1) ++ " of " ++ toString (i + 1)) := by
  constructor
  · simp only [structuredModeFooters, List.get?_map, List.get?_range h,
      Option.map_some']
    rfl
  · simp only [tableModeFooters, List.get?_map, List.get?_range h,
      Option.map_some']
    rfl

/-- Claim C1 (witness): page 1 of a finalized 3-page document reads
`Page 1 of 3` in the structured modes and `Page 1 of 1` in the table
modes. -/
theorem claim_C1_witness :
    0 < 3 ∧
    ((structuredModeFooters 3).get? 0
       = some ("Page " ++ toString (0 + 1) ++ " of " ++ toString 3) ∧
     (tableModeFooters 3).get? 0
       = some ("Page " ++ toString (0 + 1) ++ " of " ++ toString (0 + 1))) :=
  ⟨by decide, claim_C1_theorem 3 0 (by decide)⟩

/-- Claim C4: at the parsed tree of `\x7b"a":[null]\x7d` the eligibility
check returns `true` — the object-property branch omits the `!== null`
check that the claim requires (and that the top-level branch of the source
performs) — and the flattening this `true` routes to under `auto` layout
then throws a `TypeError` from `Object.keys(null)`. -/
theorem claim_C4_theorem :
    canFlattenToTable (Json.jobj [("a", Json.jarr [Json.jnull])]) = true ∧
    flattenJsonToTable (Json.jobj [("a", Json.jarr [Json.jnull])])
      = Except.error "TypeError" :=
  ⟨rfl, rfl⟩

/-- Claim C5 (counterexample): the structured JSON renderer draws an
81-character line verbatim — not truncated to the 80-character portrait
budget with a trailing ellipsis.  (Truncation exists only in the structured
XML renderer.) -/
theorem claim_C5_counterexample :
    generatePdfFromJson (fun _ => none) (fun _ => "") longLine81 Layout.auto
      = JsonPdfOutput.structuredLines [longLine81] ∧
    longLine81.length = 81 ∧
    longLine81 ≠ jsTake longLine81 (structuredMaxChars Orientation.portrait) ++ "..." :=
  ⟨by decide, by decide, by decide⟩

/-- Claim C5 (amended): only the structured XML renderer truncates a line
above the per-orientation budget (80 portrait, 120 landscape) to the budget
with a trailing `...`; the structured JSON renderer draws every line
verbatim.  Neither renderer ever wraps a line. -/
theorem claim_C5_theorem (o : Orientation) (line : String)
    (h : structuredMaxChars o < line.length) :
    xmlDisplayLine o line = jsTake line (structuredMaxChars o) ++ "..." ∧
    (xmlDisplayLine o line).length = structuredMaxChars o + 3 ∧
    jsonDisplayLine line = line := by
  have hx : xmlDisplayLine o line = jsTake line (structuredMaxChars o) ++ "..." := by
    unfold xmlDisplayLine
    rw [if_pos h]
  have hmin : (jsTake line (structuredMaxChars o)).length = structuredMaxChars o := by
    have hlen : line.length = line.data.length := rfl
    simp only [jsTake]
    rw [show (String.mk (line.data.take (structuredMaxChars o))).length
          = (line.data.take (structuredMaxChars o)).length from rfl]
    rw [List.length_take]
    omega
  refine ⟨hx, ?_, rfl⟩
  rw [hx, String.length_append, hmin]
  rfl

/-- Claim C5 (witness): the 81-character line is truncated to 83 characters
by the XML renderer and left intact by the JSON renderer (portrait). -/
theorem claim_C5_witness :
    structuredMaxChars Orientation.portrait < longLine81.length ∧
    (xmlDisplayLine Orientation.portrait longLine81
       = jsTake longLine81 (structuredMaxChars Orientation.portrait) ++ "..." ∧
     (xmlDisplayLine Orientation.portrait longLine81).length
       = structuredMaxChars Orientation.portrait + 3 ∧
     jsonDisplayLine longLine81 = longLine81) :=
  ⟨by decide, claim_C5_theorem Orientation.portrait longLine81 (by decide)⟩

theorem jsonDisplayLine_map : ∀ l : List String, l.map jsonDisplayLine = l := by
  intro l
  induction l with
  | nil => rfl
  | cons a as ih => simp [jsonDisplayLine, ih]

theorem exMap_ok_length {α β : Type} {f : α → Except String β} :
    ∀ {l : List α} {ys : List β}, exMap f l = .ok ys → ys.length = l.length := by
  intro l
  induction l with
  | nil =>
    intro ys h
    simp only [exMap] at h
    cases h
    rfl
  | cons a as ih =>
    intro ys h
    simp only [exMap] at h
    cases hfa : f a with
    | error e => rw [hfa] at h; cases h
    | ok b =>
      rw [hfa] at h
      cases hrec : exMap f as with
      | error e => rw [hrec] at h; cases h
      | ok bs =>
        rw [hrec] at h
        cases h
        simp [ih hrec]

theorem exMap_ok_mem {α β : Type} {f : α → Except String β} :
    ∀ {l : List α} {ys : List β}, exMap f l = .ok ys →
      ∀ y ∈ ys, ∃ x ∈ l, f x = .ok y := by
  intro l
  induction l with
  | nil =>
    intro ys h y hy
    simp only [exMap] at h
    cases h
    simp at hy
  | cons a as ih =>
    intro ys h y hy
    simp only [exMap] at h
    cases hfa : f a with
    | error e => rw [hfa] at h; cases h
    | ok b =>
      rw [hfa] at h
      cases hrec : exMap f as with
      | error e => rw [hrec] at h; cases h
      | ok bs =>
        rw [hrec] at h
        cases h
        rcases List.mem_cons.mp hy with hyb | hybs
        · exact ⟨a, List.mem_cons_self a as, hyb ▸ hfa⟩
        · obtain ⟨x, hx, hfx⟩ := ih hrec y hybs
          exact ⟨x, List.mem_cons_of_mem a hx, hfx⟩

theorem buildRow_ok_length {headers : List String} {item : Json}
    {row : List String} (h : buildRow headers item = .ok row) :
    row.length = headers.length :=
  exMap_ok_length h

theorem flatten_rows_length {data : Json} {headers : List String}
    {rows : List (List String)}
    (h : flattenJsonToTable data = .ok (headers, rows)) :
    ∀ row ∈ rows, row.length = headers.length := by
  unfold flattenJsonToTable at h
  by_cases hemp : (flattenItems data).isEmpty = true
  · rw [if_pos hemp] at h
    cases h
    intro row hrow
    simp at hrow
  · rw [if_neg hemp] at h
    cases hch : collectHeaders (flattenItems data) with
    | error e => simp only [hch] at h; exact Except.noConfusion h
    | ok hs =>
      simp only [hch] at h
      cases hrows : exMap (buildRow hs) (flattenItems data) with
      | error e => simp only [hrows] at h; exact Except.noConfusion h
      | ok rs =>
        simp only [hrows, Except.ok.injEq, Prod.mk.injEq] at h
        obtain ⟨h1, h2⟩ := h
        subst h1
        subst h2
        intro row hrow
        obtain ⟨item, _, hfx⟩ := exMap_ok_mem hrows row hrow
        exact buildRow_ok_length hfx

/-- Evaluation of the JSON entry point in forced-table mode once the parse
result is known. -/
theorem generatePdfFromJson_some_table (parse : String → Option Json)
    (stringifyPretty : Json → String) (content : String) (j : Json)
    (hp : parse content = some j) :
    generatePdfFromJson parse stringifyPretty content Layout.table
      = match flattenJsonToTable j with
        | .ok (hh, rr) => JsonPdfOutput.table hh rr
        | .error e => JsonPdfOutput.tableError e := by
  unfold generatePdfFromJson
  rw [hp]
  rfl

/-- Claim C7: for every content on which `JSON.parse` throws, the JSON
entry point falls back to the structured renderer, which re-parses, fails
again, and draws the raw text line by line, each line verbatim; no
exception escapes (the model is total and the fallback path contains no
throwing construct). -/
theorem claim_C7_theorem (parse : String → Option Json)
    (stringifyPretty : Json → String) (content : String) (layout : Layout)
    (h : parse content = none) :
    generatePdfFromJson parse stringifyPretty content layout
      = JsonPdfOutput.structuredLines (jsSplit "\n" content) ∧
    (jsSplit "\n" content).map jsonDisplayLine = jsSplit "\n" content := by
  refine ⟨?_, jsonDisplayLine_map _⟩
  unfold generatePdfFromJson generateStructuredJsonPdfLines
  rw [h]
  show JsonPdfOutput.structuredLines ((jsSplit "\n" content).map jsonDisplayLine)
      = JsonPdfOutput.structuredLines (jsSplit "\n" content)
  rw [jsonDisplayLine_map]

/-- Claim C7 (witness): the malformed input `\x7bbad` is rendered as its own
raw line by the structured fallback. -/
theorem claim_C7_witness :
    (fun _ : String => (none : Option Json)) "\x7bbad" = none ∧
    (generatePdfFromJson (fun _ => none) (fun _ => "") "\x7bbad" Layout.auto
       = JsonPdfOutput.structuredLines (jsSplit "\n" "\x7bbad") ∧
     (jsSplit "\n" "\x7bbad").map jsonDisplayLine = jsSplit "\n" "\x7bbad") :=
  ⟨rfl, claim_C7_theorem _ _ _ _ rfl⟩

/-- Claim C9: on the scenario input — whose `JSON.parse` result is
`c9Tree` — `auto` layout chooses the table representation with headers
`["a", "b"]` (insertion order of first appearance) and rows
`[["1", ""], ["2", "x"]]` (absent field rendered as the empty string);
moreover, whenever the flattening succeeds, every row has exactly as many
cells as there are headers. -/
theorem claim_C9_theorem (parse : String → Option Json)
    (stringifyPretty : Json → String) (content : String) (data : Json)
    (headers : List String) (rows : List (List String)) (row : List String)
    (hp : parse content = some c9Tree)
    (hflat : flattenJsonToTable data = Except.ok (headers, rows))
    (hrow : row ∈ rows) :
    generatePdfFromJson parse stringifyPretty content Layout.auto
      = JsonPdfOutput.table ["a", "b"] [["1", ""], ["2", "x"]] ∧
    row.length = headers.length := by
  refine ⟨?_, flatten_rows_length hflat row hrow⟩
  unfold generatePdfFromJson
  rw [hp]
  rfl

/-- Claim C9 (witness): the scenario evaluated at the concrete tree. -/
theorem claim_C9_witness :
    (fun _ : String => some c9Tree) "input" = some c9Tree ∧
    flattenJsonToTable c9Tree = Except.ok (["a", "b"], [["1", ""], ["2", "x"]]) ∧
    ["1", ""] ∈ [["1", ""], ["2", "x"]] ∧
    (generatePdfFromJson (fun _ => some c9Tree) (fun _ => "") "input" Layout.auto
       = JsonPdfOutput.table ["a", "b"] [["1", ""], ["2", "x"]] ∧
     (["1", ""] : List String).length = (["a", "b"] : List String).length) :=
  ⟨rfl, rfl, by decide,
   claim_C9_theorem _ _ "input" c9Tree _ _ _ rfl rfl (by decide)⟩

theorem firstArrayOfObjects_none :
    ∀ (fs : List (String × Json)),
    (∀ p ∈ fs, arrayContainsObjectTyped p.2 = false) →
    firstArrayOfObjects fs = none := by
  intro fs
  induction fs with
  | nil => intro _; rfl
  | cons p rest ih =>
    intro h
    obtain ⟨k, v⟩ := p
    have hv : arrayContainsObjectTyped v = false := h (k, v) (List.mem_cons_self _ _)
    have hrest : ∀ q ∈ rest, arrayContainsObjectTyped q.2 = false :=
      fun q hq => h q (List.mem_cons_of_mem _ hq)
    cases v with
    | jarr es =>
      cases es with
      | nil => simpa [firstArrayOfObjects] using ih hrest
      | cons x xs =>
        have hx : x.isObjectType = false := by
          rw [arrayContainsObjectTyped, List.any_cons] at hv
          cases hob : x.isObjectType
          · rfl
          · rw [hob] at hv; simp at hv
        simpa [firstArrayOfObjects, hx] using ih hrest
    | jnull => simpa [firstArrayOfObjects] using ih hrest
    | jbool b => simpa [firstArrayOfObjects] using ih hrest
    | jnum n => simpa [firstArrayOfObjects] using ih hrest
    | jstr s => simpa [firstArrayOfObjects] using ih hrest
    | jobj gs => simpa [firstArrayOfObjects] using ih hrest

theorem flattenItems_nil {j : Json} (h : hasArrayWithObjectTypedElement j = false) :
    flattenItems j = [] := by
  cases j with
  | jarr es =>
    have hany : es.any Json.isObjectType = false := by
      simp only [hasArrayWithObjectTypedElement, arrayContainsObjectTyped,
        Bool.or_eq_false_iff] at h
      exact h.1
    show List.filter (fun e => e.isObjectType && !e.isNull) es = []
    rw [List.filter_eq_nil]
    intro e he
    have : Json.isObjectType e = false := by
      rcases List.any_eq_false.mp hany e he with hfalse
      cases hob : e.isObjectType
      · rfl
      · exact absurd hob hfalse
    simp [this]
  | jobj fs =>
    have hfs : ∀ p ∈ fs, arrayContainsObjectTyped p.2 = false := by
      simp only [hasArrayWithObjectTypedElement, arrayContainsObjectTyped,
        Bool.false_or] at h
      intro p hp
      rcases List.any_eq_false.mp h p hp with hfalse
      cases hc : arrayContainsObjectTyped p.2
      · rfl
      · exact absurd hc hfalse
    show (firstArrayOfObjects fs).getD [] = []
    rw [firstArrayOfObjects_none fs hfs]
    rfl
  | jnull => rfl
  | jbool b => rfl
  | jnum n => rfl
  | jstr s => rfl

/-- Claim C10 (counterexample): the tree of `\x7b"a":[null]\x7d` has no
array containing an object element (its only array holds `null`), yet the
flattening does not return the empty projection — it throws a `TypeError`
(`Object.keys(null)`), because the property-value scan admits a `null`
first element into `items`. -/
theorem claim_C10_counterexample :
    hasArrayWithObjectElement (Json.jobj [("a", Json.jarr [Json.jnull])]) = false ∧
    flattenJsonToTable (Json.jobj [("a", Json.jarr [Json.jnull])])
      = Except.error "TypeError" ∧
    (Except.error "TypeError"
        : Except String (List String × List (List String)))
      ≠ Except.ok ([], []) :=
  ⟨rfl, rfl, fun hc => Except.noConfusion hc⟩

/-- Claim C10 (amended): for every parsed value in which no array
containing a `typeof 'object'` element (object, array or `null`) occurs at
top level or as a direct property value, the flattening returns empty
headers and rows without throwing, and forcing `table` layout on such a
value renders an empty table rather than falling back to the structured
representation. -/
theorem claim_C10_theorem (j : Json) (parse : String → Option Json)
    (stringifyPretty : Json → String) (content : String)
    (h : hasArrayWithObjectTypedElement j = false)
    (hp : parse content = some j) :
    flattenJsonToTable j = Except.ok ([], []) ∧
    generatePdfFromJson parse stringifyPretty content Layout.table
      = JsonPdfOutput.table [] [] := by
  have hflat : flattenJsonToTable j = Except.ok ([], []) := by
    simp [flattenJsonToTable, flattenItems_nil h]
  refine ⟨hflat, ?_⟩
  rw [generatePdfFromJson_some_table parse stringifyPretty content j hp, hflat]

/-- Claim C10 (witness): a bare number has no qualifying array; forcing
`table` layout renders the empty table. -/
theorem claim_C10_witness :
    hasArrayWithObjectTypedElement (Json.jnum 5) = false ∧
    (fun _ : String => some (Json.jnum 5)) "5" = some (Json.jnum 5) ∧
    (flattenJsonToTable (Json.jnum 5) = Except.ok ([], []) ∧
     generatePdfFromJson (fun _ => some (Json.jnum 5)) (fun _ => "") "5" Layout.table
       = JsonPdfOutput.table [] []) :=
  ⟨rfl, rfl, claim_C10_theorem (Json.jnum 5) _ _ _ rfl rfl⟩

theorem isOpenLine_of_close {line : String} (h : isCloseLine line = true) :
    isOpenLine line = false := by
  unfold isOpenLine
  rw [h]
  simp

theorem matchStep_close (mp : List Int × List (Int × Int)) (d : Int)
    (line : String) (hclose : isCloseLine line = true) :
    matchStep mp (d, line)
      = match mp.1 with
        | [] => mp
        | t :: rest => (rest, mp.2 ++ [(t, d)]) := by
  unfold matchStep
  rw [if_pos hclose]

theorem matchStep_open (mp : List Int × List (Int × Int)) (d : Int)
    (line : String) (hcl : isCloseLine line = false)
    (hop : isOpenLine line = true) :
    matchStep mp (d, line) = (d :: mp.1, mp.2) := by
  unfold matchStep
  rw [if_neg (by simp [hcl]), if_pos hop]

theorem matchStep_neutral (mp : List Int × List (Int × Int)) (d : Int)
    (line : String) (hcl : isCloseLine line = false)
    (hop : isOpenLine line = false) :
    matchStep mp (d, line) = mp := by
  unfold matchStep
  rw [if_neg (by simp [hcl]), if_neg (by simp [hop])]

theorem descStack_succ (n : Nat) : descStack (n + 1) = (n : Int) :: descStack n := rfl

theorem fmtStep_inv (st : Int × List (Int × String)) (raw : String)
    (h : FmtInv st) : FmtInv (formatXmlStep st raw) := by
  obtain ⟨ind, acc⟩ := st
  unfold FmtInv at h ⊢
  obtain ⟨h1, h2, h3, h4⟩ := h
  dsimp only at h1 h2 h3 h4
  simp only [formatXmlStep]
  by_cases hemp : jsTrim raw = ""
  · rw [if_pos hemp]
    exact ⟨h1, h2, h3, h4⟩
  · rw [if_neg hemp]
    obtain ⟨n, hn⟩ := Int.eq_ofNat_of_zero_le h1
    subst hn
    rcases hmp : List.foldl matchStep ([], []) acc with ⟨stk, prs⟩
    rw [hmp] at h3 h4
    dsimp only at h3 h4
    have htn : (((n : Nat) : Int)).toNat = n := by omega
    rw [htn] at h3
    by_cases hclose : isCloseLine (jsTrim raw) = true
    · rw [if_pos hclose,
        if_neg (show ¬ isOpenLine (jsTrim raw) = true by
          simp [isOpenLine_of_close hclose])]
      cases n with
      | zero =>
        have hind1 : max 0 (((0 : Nat) : Int) - 1) = ((0 : Nat) : Int) := by
          norm_num
        rw [hind1]
        have hstk : stk = [] := h3
        refine ⟨by dsimp only; omega, ?_, ?_, ?_⟩
        · intro p hp
          rcases List.mem_append.mp hp with hpa | hpl
          · exact h2 p hpa
          · rw [List.mem_singleton.mp hpl]
            dsimp only
            omega
        · rw [List.foldl_append, hmp]
          simp only [List.foldl_cons, List.foldl_nil]
          rw [matchStep_close _ _ _ hclose]
          dsimp only
          rw [hstk]
          dsimp only
          rfl
        · rw [List.foldl_append, hmp]
          simp only [List.foldl_cons, List.foldl_nil]
          rw [matchStep_close _ _ _ hclose]
          dsimp only
          rw [hstk]
          dsimp only
          exact h4
      | succ m =>
        have hge : (0 : Int) ≤ ((m + 1 : Nat) : Int) - 1 := by push_cast; omega
        have hind1 : max 0 (((m + 1 : Nat) : Int) - 1) = ((m : Nat) : Int) := by
          rw [max_eq_right hge]
          push_cast
          ring
        rw [hind1]
        have hstk : stk = ((m : Nat) : Int) :: descStack m := h3
        refine ⟨by dsimp only; omega, ?_, ?_, ?_⟩
        · intro p hp
          rcases List.mem_append.mp hp with hpa | hpl
          · exact h2 p hpa
          · rw [List.mem_singleton.mp hpl]
            dsimp only
            omega
        · rw [List.foldl_append, hmp]
          simp only [List.foldl_cons, List.foldl_nil]
          rw [matchStep_close _ _ _ hclose]
          dsimp only
          rw [hstk]
          dsimp only
          have htm : (((m : Nat) : Int)).toNat = m := by omega
          rw [htm]
        · rw [List.foldl_append, hmp]
          simp only [List.foldl_cons, List.foldl_nil]
          rw [matchStep_close _ _ _ hclose]
          dsimp only
          rw [hstk]
          dsimp only
          intro q hq
          rcases List.mem_append.mp hq with hqp | hql
          · exact h4 q hqp
          · rw [List.mem_singleton.mp hql]
    · have hclose2 : isCloseLine (jsTrim raw) = false := by
        cases hc : isCloseLine (jsTrim raw)
        · rfl
        · exact absurd hc hclose
      rw [if_neg (show ¬ isCloseLine (jsTrim raw) = true by simp [hclose2])]
      by_cases hopen : isOpenLine (jsTrim raw) = true
      · rw [if_pos hopen]
        refine ⟨by dsimp only; omega, ?_, ?_, ?_⟩
        · intro p hp
          rcases List.mem_append.mp hp with hpa | hpl
          · exact h2 p hpa
          · rw [List.mem_singleton.mp hpl]
            dsimp only
            omega
        · rw [List.foldl_append, hmp]
          simp only [List.foldl_cons, List.foldl_nil]
          rw [matchStep_open _ _ _ hclose2 hopen]
          dsimp only
          rw [h3]
          have hts : ((((n : Nat) : Int)) + 1).toNat = n + 1 := by omega
          rw [hts, descStack_succ]
        · rw [List.foldl_append, hmp]
          simp only [List.foldl_cons, List.foldl_nil]
          rw [matchStep_open _ _ _ hclose2 hopen]
          dsimp only
          exact h4
      · have hopen2 : isOpenLine (jsTrim raw) = false := by
          cases ho : isOpenLine (jsTrim raw)
          · rfl
          · exact absurd ho hopen
        rw [if_neg (show ¬ isOpenLine (jsTrim raw) = true by simp [hopen2])]
        refine ⟨by dsimp only; omega, ?_, ?_, ?_⟩
        · intro p hp
          rcases List.mem_append.mp hp with hpa | hpl
          · exact h2 p hpa
          · rw [List.mem_singleton.mp hpl]
            dsimp only
            omega
        · rw [List.foldl_append, hmp]
          simp only [List.foldl_cons, List.foldl_nil]
          rw [matchStep_neutral _ _ _ hclose2 hopen2]
          dsimp only
          rw [h3, htn]
        · rw [List.foldl_append, hmp]
          simp only [List.foldl_cons, List.foldl_nil]
          rw [matchStep_neutral _ _ _ hclose2 hopen2]
          dsimp only
          exact h4


theorem fmtFold_inv (raws : List String) :
    ∀ st : Int × List (Int × String), FmtInv st →
      FmtInv (raws.foldl formatXmlStep st) := by
  induction raws with
  | nil => intro st h; exact h
  | cons r rs ih => intro st h; exact ih _ (fmtStep_inv st r h)

/-- Claim C6 (counterexample): on `<a></a>` the closing tag is emitted at
indentation 0, the same depth as its matching opening tag — the close
construct decrements before emission, which makes the two depths equal,
never strictly smaller. -/
theorem claim_C6_counterexample :
    formatXmlLines "<a></a>" = [(0, "<a>"), (0, "</a>")] ∧
    matchedPairs (formatXmlLines "<a></a>") = [(0, 0)] ∧
    ¬ ((0 : Int) < 0) :=
  ⟨by decide, by decide, by decide⟩

/-- Claim C6 (amended): for every markup input, every line emitted by the
pretty-printer has indentation depth ≥ 0 (the close construct decrements
with a floor of 0 before being emitted), and every closing line's
indentation is *equal to* — not strictly less than — the indentation of
the line its open/close discipline matches it with. -/
theorem claim_C6_theorem (xml : String) :
    (∀ p ∈ formatXmlLines xml, 0 ≤ p.1) ∧
    (∀ q ∈ matchedPairs (formatXmlLines xml), q.1 = q.2) := by
  have hbase : FmtInv ((0 : Int), ([] : List (Int × String))) := by
    refine ⟨le_refl 0, ?_, rfl, ?_⟩
    · intro p hp
      simp at hp
    · intro q hq
      simp [matchedPairs] at hq
  have h := fmtFold_inv (jsSplit "\n" (jsReplaceAll "><" ">\n<" xml)) _ hbase
  obtain ⟨_, h2, _, h4⟩ := h
  exact ⟨h2, h4⟩

/-- Claim C6 (witness): the invariant evaluated on a nested document. -/
theorem claim_C6_witness :
    (∀ p ∈ formatXmlLines "<a><b>x</b></a>", 0 ≤ p.1) ∧
    (∀ q ∈ matchedPairs (formatXmlLines "<a><b>x</b></a>"), q.1 = q.2) :=
  claim_C6_theorem "<a><b>x</b></a>"

theorem maxBucketCount_cons (a : String × List (String × String))
    (tl : List (String × List (String × String))) :
    maxBucketCount (a :: tl) = max a.2.length (maxBucketCount tl) := rfl

theorem mem_le_maxBucketCount :
    ∀ (gs : List (String × List (String × String))), ∀ g ∈ gs,
      g.2.length ≤ maxBucketCount gs := by
  intro gs
  induction gs with
  | nil => intro g hg; simp at hg
  | cons a tl ih =>
    intro g hg
    rw [maxBucketCount_cons]
    rcases List.mem_cons.mp hg with hga | hgtl
    · subst hga
      exact le_max_left _ _
    · exact le_trans (ih g hgtl) (le_max_right _ _)

theorem foldl_sel_stay :
    ∀ (tl : List (String × List (String × String)))
      (acc : String × List (String × String)),
    (∀ g ∈ tl, g.2.length ≤ acc.2.length) → List.foldl selStep acc tl = acc := by
  intro tl
  induction tl with
  | nil => intro acc _; rfl
  | cons a tl2 ih =>
    intro acc h
    have ha : a.2.length ≤ acc.2.length := h a (List.mem_cons_self _ _)
    have hng : ¬ (a.2.length > acc.2.length) := by omega
    have hstep : selStep acc a = acc := by
      simp [selStep, hng]
    rw [List.foldl_cons, hstep]
    exact ih acc (fun g hg => h g (List.mem_cons_of_mem _ hg))

theorem coreSel :
    ∀ (gs : List (String × List (String × String)))
      (acc : String × List (String × String)),
    acc.2.length < maxBucketCount gs → 1 < maxBucketCount gs →
    gs.find? (fun g => g.2.length == maxBucketCount gs)
      = some (List.foldl selStep acc gs) := by
  intro gs
  induction gs with
  | nil =>
    intro acc h1 _
    simp [maxBucketCount] at h1
  | cons a tl ih =>
    intro acc h1 h2
    rw [maxBucketCount_cons] at h1 h2 ⊢
    by_cases hA : a.2.length = max a.2.length (maxBucketCount tl)
    · have h1' : acc.2.length < a.2.length := by rw [hA]; exact h1
      have h2' : 1 < a.2.length := by rw [hA]; exact h2
      have hsel : selStep acc a = a := by
        have hb : (decide (a.2.length > acc.2.length)
            && decide (a.2.length > 1)) = true := by
          rw [Bool.and_eq_true]
          exact ⟨decide_eq_true h1', decide_eq_true h2'⟩
        unfold selStep
        rw [if_pos hb]
      rw [List.find?_cons_of_pos _ (by simp [← hA]), List.foldl_cons, hsel,
        foldl_sel_stay tl a (fun g hg => by
          have := mem_le_maxBucketCount tl g hg
          have hle : maxBucketCount tl ≤ max a.2.length (maxBucketCount tl) :=
            le_max_right _ _
          omega)]
    · have hle : a.2.length ≤ max a.2.length (maxBucketCount tl) := le_max_left _ _
      have hlt : a.2.length < max a.2.length (maxBucketCount tl) :=
        lt_of_le_of_ne hle hA
      have hmaxtl : maxBucketCount tl = max a.2.length (maxBucketCount tl) := by
        rcases max_choice a.2.length (maxBucketCount tl) with hc | hc
        · exact absurd hc.symm hA
        · exact hc.symm
      rw [List.find?_cons_of_neg _ (by simp [hA]), ← hmaxtl]
      have hacc2 : (selStep acc a).2.length < maxBucketCount tl := by
        unfold selStep
        by_cases hc : (decide (a.2.length > acc.2.length)
            && decide (a.2.length > 1)) = true
        · rw [if_pos hc]
          rw [hmaxtl]
          exact hlt
        · rw [if_neg hc]
          rw [hmaxtl]
          exact h1
      have h22 : 1 < maxBucketCount tl := by rw [hmaxtl]; exact h2
      rw [List.foldl_cons]
      exact ih (selStep acc a) hacc2 h22

/-- Claim C8 (counterexample): a markup document whose two `<product>`
elements sit inside a `<catalog>` root — so `product` occurs more than
once and no other tag repeats — yields *no* record group at all: the
element regex matches the whole root as a single span (content is lazy up
to the first `</catalog>`), scanning is non-overlapping, so only one
`catalog` bucket of count 1 exists and the extractor returns the empty
list, not the group of the 2 products. -/
theorem claim_C8_counterexample :
    parseXmlToObjects rootedXml = [] ∧
    scanElements (rootedXml.length + 1) rootedXml.data
      = [("catalog", "",
          "<product><name>A</name></product><product><name>B</name></product>")] ∧
    ([] : List (List (String × String))).length ≠ 2 :=
  ⟨by decide, by decide, by decide⟩

/-- Claim C8 (amended): the bucket-selection fold does pick the bucket with
the strictly largest member count among buckets with more than one member,
resolving ties in favour of the first-encountered bucket (it equals the
first bucket whose count attains the maximum, whenever some bucket has
count > 1); but spans are matched non-overlapping from the left, so
elements nested inside an already-matched span are never bucketed: the
two-`<product>` scenario holds for a root-less fragment (even with
singleton tags present), not for a rooted document; and a record
contributing zero fields is dropped from the group. -/
theorem claim_C8_theorem (gs : List (String × List (String × String)))
    (xml : String) (r : List (String × String))
    (h : ∃ g ∈ gs, 1 < g.2.length)
    (hr : r ∈ parseXmlToObjects xml) :
    specSelectBucket gs = some (selectMaxGroup gs) ∧
    parseXmlToObjects fragmentXml
      = [[("name", "A"), ("price", "1")], [("name", "B"), ("price", "2")]] ∧
    parseXmlToObjects dropXml = [[("name", "B")]] ∧
    r ≠ [] := by
  obtain ⟨g0, hg0, hg0c⟩ := h
  have hmax : 1 < maxBucketCount gs :=
    lt_of_lt_of_le hg0c (mem_le_maxBucketCount gs g0 hg0)
  refine ⟨?_, by decide, by decide, ?_⟩
  · unfold specSelectBucket selectMaxGroup
    rw [if_pos hmax]
    exact coreSel gs ("", []) (by simp only [List.length_nil]; omega) hmax
  · simp only [parseXmlToObjects] at hr
    split at hr
    · simp at hr
    · have hpos := (List.mem_filter.mp hr).2
      simp only [decide_eq_true_eq] at hpos
      exact List.length_pos.mp hpos

/-- Claim C8 (witness): selection and scenarios evaluated at concrete
buckets and documents. -/
theorem claim_C8_witness :
    (∃ g ∈ ([("meta", [("", "m")]), ("product", [("", "a"), ("", "b")])]
        : List (String × List (String × String))), 1 < g.2.length) ∧
    [("name", "A"), ("price", "1")] ∈ parseXmlToObjects fragmentXml ∧
    (specSelectBucket [("meta", [("", "m")]), ("product", [("", "a"), ("", "b")])]
       = some (selectMaxGroup
           [("meta", [("", "m")]), ("product", [("", "a"), ("", "b")])]) ∧
     parseXmlToObjects fragmentXml
       = [[("name", "A"), ("price", "1")], [("name", "B"), ("price", "2")]] ∧
     parseXmlToObjects dropXml = [[("name", "B")]] ∧
     [("name", "A"), ("price", "1")] ≠ ([] : List (String × String))) :=
  ⟨by decide, by decide,
   claim_C8_theorem _ fragmentXml _ (by decide) (by decide)⟩

end Tabulon
